import Mathlib

/-!
Verification of the TaoJournal client-side trade-analytics engine
(src/tao-trader-ui/src/pages/FailDashboard.jsx, functions `applyFilters`,
`computeAnalytics`, `computeConsecutive`, `highConfidenceWinRate`,
`lowConfidenceWinRate`, `ruleBreakImpact`, `computeEquityCurve`,
`computeHeatmapPnL`).

Modelling conventions, stated once:
* JS numbers on the reachable paths are rationals; the one computation that
  can produce `Infinity`/`NaN` (the `avgRiskReward` fold) is modelled with an
  explicit `JsNum` type.  `x || 0` on a number maps the falsy values `0` and
  `NaN` to `0`.
* Timestamps carry a calendar day (days since 1970-01-01, a Thursday) and a
  wall-clock hour/minute; a single time zone is assumed (local = UTC), so
  `new Date("YYYY-MM-DD")` is midnight of that day and the lexicographic
  comparison of zero-padded "HH:MM" strings is the numeric comparison of
  minutes of the day.
* JS objects used as string-keyed accumulators are association lists in
  insertion order.
* `toFixed(d)` yields the decimal string of the value rounded to `d` digits;
  its numeric reading is modelled by `toFixed` (round half away from zero),
  and where the code interpolates it into a message string, by `fix1Str`.
* `Array.prototype.sort` (always invoked with an ascending comparator) is a
  stable ascending insertion sort; `Array.prototype.filter` and `map`
  allocate fresh arrays, which the store model of `runEngine` makes explicit.
-/

namespace TaoJournal

/-- One entry of a trade's `rule_adherence` list. -/
structure RuleAdh where
  rule_id : Int
  followed : Bool
deriving DecidableEq

/-- A buy/sell timestamp: calendar day (days since 1970-01-01, local = UTC)
plus wall-clock hour and minute. -/
structure Timestamp where
  day : Int
  hour : Fin 24
  minute : Fin 60
deriving DecidableEq

/-- Minutes since the epoch; the value `new Date(ts)` compares by. -/
def Timestamp.epochMin (t : Timestamp) : Int :=
  t.day * 1440 + t.hour.val * 60 + t.minute.val

/-- Minute of the day; the numeric reading of `toTimeString().slice(0, 5)`. -/
def Timestamp.minuteOfDay (t : Timestamp) : Nat :=
  t.hour.val * 60 + t.minute.val

/-- JS `getDay()`: weekday 0..6 with 0 = Sunday (day 0, 1970-01-01, was a
Thursday, weekday 4). -/
def Timestamp.jsWeekday (t : Timestamp) : Int :=
  (t.day + 4) % 7

/-- A trade record as the engine receives it from the API.  Optional numeric
fields are `Option`; a missing field is `none` and the code's `x || 0` (or
`parseInt(x) || 0`) defaulting reads it as 0. -/
structure Trade where
  id : Int := 0
  instrument : String := ""
  trade_type : Option String := none
  buy_timestamp : Timestamp
  sell_timestamp : Option Timestamp := none
  buy_price : Option ℚ := none
  sell_price : Option ℚ := none
  qty : Option ℚ := none
  direction : Option String := none
  stop : Option ℚ := none
  target : Option ℚ := none
  pnl : Option ℚ := none
  r_multiple : Option ℚ := none
  confidence : Option Int := none
  strategy_id : Option Int := none
  rule_adherence : Option (List RuleAdh) := none
deriving DecidableEq

/-- A strategy, used by the engine only for name lookup. -/
structure Strategy where
  id : Int
  name : String := ""
  description : String := ""
deriving DecidableEq

/-- The filter controls (initial state of `filters` in FailDashboard.jsx,
lines 1006-1017).  Unset date bounds and the unset strategy selector are
`none`; times are minutes of the day. -/
structure FilterSpec where
  startDate : Option Int := none
  endDate : Option Int := none
  startTime : Nat := 0
  endTime : Nat := 1439
  strategyId : Option Int := none
  tradeType : String := "All"
  direction : String := "All"
  followed : String := "All"
  confidenceMin : Int := 1
  confidenceMax : Int := 5
deriving DecidableEq

/-- The initial, least restrictive filter state. -/
def defaultFilters : FilterSpec := {}

/-! ## Filter stage (`applyFilters`, FailDashboard.jsx lines 1074-1104) -/

/-- Date-range check (lines 1080-1083): `new Date(filters.startDate)` is
midnight of the bound day, and the full buy timestamp is compared against it;
`buyDate < startDate` / `buyDate > endDate` reject the trade. -/
def datePass (startDate endDate : Option Int) (t : Trade) : Bool :=
  (match startDate with
   | some d => !(t.buy_timestamp.epochMin < d * 1440)
   | none => true) &&
  (match endDate with
   | some d => !(t.buy_timestamp.epochMin > d * 1440)
   | none => true)

/-- Time-of-day check (line 1085): `buyTime < startTime || buyTime > endTime`
rejects, on minutes of the day. -/
def timePass (startTime endTime : Nat) (t : Trade) : Bool :=
  !(decide (t.buy_timestamp.minuteOfDay < startTime) ||
    decide (t.buy_timestamp.minuteOfDay > endTime))

/-- Strategy check (line 1087): an unset selector imposes nothing; otherwise
`trade.strategy_id !== parseInt(filters.strategyId)` rejects (a null
`strategy_id` never equals a number). -/
def strategyPass (sid : Option Int) (t : Trade) : Bool :=
  match sid with
  | some s => t.strategy_id == some s
  | none => true

/-- Trade-type check (line 1089). -/
def typePass (tt : String) (t : Trade) : Bool :=
  tt == "All" || t.trade_type == some tt

/-- Direction check (line 1091). -/
def directionPass (d : String) (t : Trade) : Bool :=
  d == "All" || t.direction == some d

/-- Confidence check (lines 1093-1094): `parseInt(trade.confidence) || 0`
reads a missing confidence as 0. -/
def confidencePass (cmin cmax : Int) (t : Trade) : Bool :=
  let c := t.confidence.getD 0
  !(decide (c < cmin) || decide (c > cmax))

/-- The `avgFollowed` value of line 1097.  `some q` is the JS number `q`;
`none` is `NaN`, produced by `0 / 0` when `rule_adherence` is a present but
empty array (an empty array is truthy, so the ternary still divides).
A missing (`null`/`undefined`) list takes the `: 1` branch. -/
def avgFollowed (t : Trade) : Option ℚ :=
  match t.rule_adherence with
  | none => some 1
  | some ras =>
      if ras.length = 0 then none
      else some (((ras.filter (fun r => r.followed)).length : ℚ) / (ras.length : ℚ))

/-- JS `<` on a possibly-NaN left operand: any comparison with NaN is false. -/
def optLt (x : Option ℚ) (b : ℚ) : Bool :=
  match x with
  | none => false
  | some a => decide (a < b)

/-- JS `>` on a possibly-NaN left operand. -/
def optGt (x : Option ℚ) (b : ℚ) : Bool :=
  match x with
  | none => false
  | some a => decide (a > b)

/-- Rule-adherence check (lines 1096-1100): with value "Followed" the trade is
rejected when `avgFollowed < 0.8`; with "Broken" when `avgFollowed > 0.8`. -/
def followedPass (fv : String) (t : Trade) : Bool :=
  if fv == "All" then true
  else
    let af := avgFollowed t
    if fv == "Followed" && optLt af (4/5) then false
    else if fv == "Broken" && optGt af (4/5) then false
    else true

/-- One trade's passage through all the ANDed predicates of `applyFilters`. -/
def passesFilters (f : FilterSpec) (t : Trade) : Bool :=
  datePass f.startDate f.endDate t &&
  timePass f.startTime f.endTime t &&
  strategyPass f.strategyId t &&
  typePass f.tradeType t &&
  directionPass f.direction t &&
  confidencePass f.confidenceMin f.confidenceMax t &&
  followedPass f.followed t

/-- `applyFilters` (lines 1074-1104); the `if (!trades) return []` guard is
the empty-list case of a well-typed input. -/
def applyFilters (f : FilterSpec) (trades : List Trade) : List Trade :=
  trades.filter (passesFilters f)

/-! ## Aggregation stage (`computeAnalytics`, FailDashboard.jsx lines 1106-1262) -/

/-- The numeric reading of `x.toFixed(d)`: round half away from zero at `d`
decimal digits. -/
def toFixed (d : Nat) (q : ℚ) : ℚ :=
  let p : ℚ := (10 : ℚ) ^ d
  (if 0 ≤ q then ((⌊q * p + 1/2⌋ : ℤ) : ℚ) else -((⌊-(q * p) + 1/2⌋ : ℤ) : ℚ)) / p

/-- Decimal string of `toFixed(1)` for a nonnegative value (the win rates
interpolated into the behavioral messages lie in [0, 100]). -/
def fix1Str (q : ℚ) : String :=
  let n : Nat := (⌊q * 10 + 1/2⌋ : ℤ).toNat
  toString (n / 10) ++ "." ++ toString (n % 10)

/-- A trade's pnl with the `(t.pnl || 0)` default. -/
def pnl0 (t : Trade) : ℚ := t.pnl.getD 0

/-- A trade's r-multiple with the `(t.r_multiple || 0)` default. -/
def rMult0 (t : Trade) : ℚ := t.r_multiple.getD 0

/-- Sum of defaulted pnl over a list (`reduce((sum, t) => sum + (t.pnl || 0), 0)`). -/
def totalPnlOf (l : List Trade) : ℚ :=
  l.foldl (fun s t => s + pnl0 t) 0

/-- Count of winners, `r_multiple > 0` after defaulting (line 1133). -/
def winsCount (l : List Trade) : Nat :=
  (l.filter (fun t => decide (0 < rMult0 t))).length

/-- `winRate` of line 1134 (the numeric value of the `toFixed(1)` string). -/
def winRateOf (l : List Trade) : ℚ :=
  toFixed 1 ((winsCount l : ℚ) / (l.length : ℚ) * 100)

/-- `avgR` of line 1135 (the numeric value of the `toFixed(2)` string). -/
def avgROf (l : List Trade) : ℚ :=
  toFixed 2 ((l.foldl (fun s t => s + rMult0 t) 0) / (l.length : ℚ))

/-- The Long subset of line 1137. -/
def longTrades (l : List Trade) : List Trade :=
  l.filter (fun t => t.direction == some "Long")

/-- The Short subset of line 1138. -/
def shortTrades (l : List Trade) : List Trade :=
  l.filter (fun t => t.direction == some "Short")

/-- `longPnl` of line 1139; the trailing `|| 0` is the identity on a rational
sum (it maps the falsy values 0 and NaN to 0, and a sum of rationals is never
NaN). -/
def longPnlOf (l : List Trade) : ℚ := totalPnlOf (longTrades l)

/-- `shortPnl` of line 1140. -/
def shortPnlOf (l : List Trade) : ℚ := totalPnlOf (shortTrades l)

/-- The per-group accumulator of `byStrategy`/`byRule`/`byType`
(`{trades, pnl, wins, avgRisk, expectancy}` plus the `winRate`/`avgR` fields
the finalizing pass adds; unset fields start at 0). -/
structure GroupStats where
  trades : Nat := 0
  pnl : ℚ := 0
  wins : Nat := 0
  avgRisk : ℚ := 0
  winRate : ℚ := 0
  avgR : ℚ := 0
  expectancy : ℚ := 0
deriving DecidableEq

/-- A JS object used as a string-keyed accumulator, in insertion order. -/
abbrev Groups := List (String × GroupStats)

/-- Update the entry at key `k` (creating `init` first when absent), as
`if (!obj[k]) obj[k] = init; mutate obj[k]` does. -/
def updAssoc {α : Type} (k : String) (f : α → α) (init : α) :
    List (String × α) → List (String × α)
  | [] => [(k, f init)]
  | (k', v) :: rest =>
      if k' = k then (k', f v) :: rest else (k', v) :: updAssoc k f init rest

/-- `(t.qty * t.buy_price * 0.01) || 0`: NaN (either factor missing) becomes 0. -/
def riskOf (t : Trade) : ℚ :=
  match t.qty, t.buy_price with
  | some q, some b => q * b * (1/100)
  | _, _ => 0

/-- One trade's contribution to a group accumulator (lines 1146-1149). -/
def addTradeStats (t : Trade) (g : GroupStats) : GroupStats :=
  { g with
    trades := g.trades + 1
    pnl := g.pnl + pnl0 t
    avgRisk := g.avgRisk + riskOf t
    wins := if 0 < rMult0 t then g.wins + 1 else g.wins }

/-- The finalizing pass over a group (lines 1151-1157): winRate, avgR, the
avgRisk mean and the expectancy formula, each through `toFixed`. -/
def finalizeStats (s : GroupStats) : GroupStats :=
  let wr := toFixed 1 ((s.wins : ℚ) / (s.trades : ℚ) * 100)
  let ar := toFixed 2 (s.pnl / (s.trades : ℚ) / 1000)
  { s with
    winRate := wr
    avgR := ar
    avgRisk := toFixed 2 (s.avgRisk / (s.trades : ℚ))
    expectancy := toFixed 2 (wr / 100 * ar - (1 - wr / 100)) }

/-- The group key of line 1144: the matching strategy's name, with
`?.name || 'No Strategy'` turning both a failed lookup and a falsy (empty)
name into "No Strategy". -/
def stratName (strategies : List Strategy) (t : Trade) : String :=
  match strategies.find? (fun s => some s.id == t.strategy_id) with
  | some s => if s.name = "" then "No Strategy" else s.name
  | none => "No Strategy"

/-- `byStrategy` before the finalizing pass (lines 1142-1150). -/
def byStrategyRaw (strategies : List Strategy) (l : List Trade) : Groups :=
  l.foldl (fun g t => updAssoc (stratName strategies t) (addTradeStats t) {} g) []

/-- `byStrategy` (lines 1142-1157). -/
def byStrategyOf (strategies : List Strategy) (l : List Trade) : Groups :=
  (byStrategyRaw strategies l).map (fun kv => (kv.1, finalizeStats kv.2))

/-- The `byRule` key of line 1162: a template string, with a null
`strategy_id` printing as "null". -/
def ruleKey (t : Trade) (ra : RuleAdh) : String :=
  (match t.strategy_id with | some i => toString i | none => "null") ++ "_" ++
  toString ra.rule_id ++ "_" ++ (if ra.followed then "Followed" else "Broken")

/-- `byRule` (lines 1159-1176); `rule_adherence?.forEach` skips a missing list. -/
def byRuleOf (l : List Trade) : Groups :=
  (l.foldl
      (fun g t =>
        (t.rule_adherence.getD []).foldl
          (fun g2 ra => updAssoc (ruleKey t ra) (addTradeStats t) {} g2) g)
      []).map (fun kv => (kv.1, finalizeStats kv.2))

/-- The `byType` key of line 1180: `t.trade_type || 'Other'` (a missing or
empty type is "Other"). -/
def typeKey (t : Trade) : String :=
  match t.trade_type with
  | some s => if s = "" then "Other" else s
  | none => "Other"

/-- `byType` (lines 1178-1193). -/
def byTypeOf (l : List Trade) : Groups :=
  (l.foldl (fun g t => updAssoc (typeKey t) (addTradeStats t) {} g) []).map
    (fun kv => (kv.1, finalizeStats kv.2))

/-- The per-group accumulator of `byHour`/`byDayOfWeek` (`{trades, pnl, wins}`
plus the finalized `winRate`/`avgR`). -/
structure HourStats where
  trades : Nat := 0
  pnl : ℚ := 0
  wins : Nat := 0
  winRate : ℚ := 0
  avgR : ℚ := 0
deriving DecidableEq

/-- One trade's contribution to an hour/weekday group (lines 1198-1201). -/
def addTradeHour (t : Trade) (g : HourStats) : HourStats :=
  { g with
    trades := g.trades + 1
    pnl := g.pnl + pnl0 t
    wins := if 0 < rMult0 t then g.wins + 1 else g.wins }

/-- The finalizing pass over an hour/weekday group (lines 1203-1207). -/
def finalizeHour (s : HourStats) : HourStats :=
  { s with
    winRate := toFixed 1 ((s.wins : ℚ) / (s.trades : ℚ) * 100)
    avgR := toFixed 2 (s.pnl / (s.trades : ℚ) / 1000) }

/-- `byHour` (lines 1195-1207); JS object keys are the decimal hour strings. -/
def byHourOf (l : List Trade) : List (String × HourStats) :=
  (l.foldl
      (fun g t => updAssoc (toString t.buy_timestamp.hour.val) (addTradeHour t) {} g)
      []).map (fun kv => (kv.1, finalizeHour kv.2))

/-- `byDayOfWeek` (lines 1209-1221). -/
def byDayOfWeekOf (l : List Trade) : List (String × HourStats) :=
  (l.foldl
      (fun g t => updAssoc (toString t.buy_timestamp.jsWeekday) (addTradeHour t) {} g)
      []).map (fun kv => (kv.1, finalizeHour kv.2))

/-! ### maxDrawdown (lines 1223-1227) -/

/-- A JS runtime exception; `typeError` is the TypeError raised by spreading a
non-iterable value in a call's argument list. -/
inductive JsError where
  | typeError
deriving DecidableEq

/-- Stable ascending insertion into a sorted list of rationals. -/
def insertAsc (x : ℚ) : List ℚ → List ℚ
  | [] => [x]
  | y :: ys => if x ≤ y then x :: y :: ys else y :: insertAsc x ys

/-- `arr.sort((a, b) => a - b)`: stable ascending sort. -/
def sortAsc : List ℚ → List ℚ
  | [] => []
  | x :: xs => insertAsc x (sortAsc xs)

/-- `Math.max(...sortedPnL.slice(0, i + 1))`: maximum of the nonempty prefix
of length `i + 1`. -/
def peakUpTo (l : List ℚ) (i : Nat) : ℚ :=
  match l.take (i + 1) with
  | [] => 0
  | x :: xs => xs.foldl max x

/-- The inner `reduce` of lines 1224-1227: over `sortedPnL.slice(0, -1)` with
initial value 0, each step takes `Math.min(drawdown, pnl - peak)`.  It
returns a single number. -/
def ddReduce (l : List ℚ) : ℚ :=
  (List.range (l.length - 1)).foldl (fun dd i => min dd (l.getD i 0 - peakUpTo l i)) 0

/-- `Math.min(...x, 0)` where `x` is the number `ddReduce` returned: spreading
a non-iterable number raises a TypeError, whatever the number is. -/
def jsSpreadMin (x : ℚ) : Except JsError ℚ :=
  let _ := x
  .error .typeError

/-- The `maxDrawdown` expression of lines 1224-1227: the `sortedPnL.length > 1`
guard yields 0 for at most one trade, and otherwise evaluates the reduce and
then throws in the spread. -/
def maxDrawdownE (sortedPnL : List ℚ) : Except JsError ℚ :=
  if 1 < sortedPnL.length then jsSpreadMin (ddReduce sortedPnL) else .ok 0

/-! ### avgRiskReward (line 1229), with explicit JS number semantics -/

/-- A JS number as the `avgRiskReward` fold can produce it. -/
inductive JsNum where
  | num : ℚ → JsNum
  | posInf : JsNum
  | negInf : JsNum
  | nan : JsNum
deriving DecidableEq

/-- JS addition on the values the fold meets. -/
def JsNum.add : JsNum → JsNum → JsNum
  | num a, num b => num (a + b)
  | nan, _ => nan
  | _, nan => nan
  | posInf, negInf => nan
  | negInf, posInf => nan
  | posInf, _ => posInf
  | _, posInf => posInf
  | negInf, _ => negInf
  | _, negInf => negInf

/-- JS division of two plain numbers: a zero denominator gives a signed
infinity, or NaN when the numerator is 0 too. -/
def jsDiv (a b : ℚ) : JsNum :=
  if b ≠ 0 then .num (a / b)
  else if 0 < a then .posInf
  else if a < 0 then .negInf
  else .nan

/-- JS division by the nonnegative integer `totalTrades` (`Infinity / 0` is
`Infinity`, `0 / 0` is NaN). -/
def JsNum.divNat : JsNum → Nat → JsNum
  | num a, 0 => if 0 < a then posInf else if a < 0 then negInf else nan
  | num a, Nat.succ n => num (a / (Nat.succ n : ℚ))
  | posInf, _ => posInf
  | negInf, _ => negInf
  | nan, _ => nan

/-- `x || 0` on a JS number: the falsy values `0` and NaN become 0; infinities
and nonzero numbers pass through. -/
def jsOr0 (x : JsNum) : JsNum :=
  if x = .num 0 ∨ x = .nan then .num 0 else x

/-- One trade's ratio `((t.target || 0) - (t.buy_price || 0)) /
((t.buy_price || 0) - (t.stop || 0))` under JS division. -/
def rrStep (t : Trade) : JsNum :=
  jsDiv (t.target.getD 0 - t.buy_price.getD 0) (t.buy_price.getD 0 - t.stop.getD 0)

/-- The same ratio as a rational, defined when the defaulted denominator is
nonzero. -/
def ratioD (t : Trade) : ℚ :=
  (t.target.getD 0 - t.buy_price.getD 0) / (t.buy_price.getD 0 - t.stop.getD 0)

/-- `avgRiskReward` (line 1229).  By precedence the body parses as
`(sum + ratio) || 0`, so the `|| 0` applies to the whole running sum after
each addition, and once more to the final quotient. -/
def avgRiskRewardOf (l : List Trade) : JsNum :=
  let sum := l.foldl (fun s t => jsOr0 (JsNum.add s (rrStep t))) (.num 0)
  jsOr0 (sum.divNat l.length)

/-- Modelled from the spec's words, for comparison: the mean in which any
trade with a zero denominator or a missing `target` or `stop` contributes 0. -/
def avgRiskRewardSpec (l : List Trade) : ℚ :=
  (l.map (fun t =>
      match t.target, t.stop with
      | some _, some _ => if t.buy_price.getD 0 - t.stop.getD 0 = 0 then 0 else ratioD t
      | _, _ => 0)).sum / (l.length : ℚ)

/-! ### Consecutive runs, behavioral insights, equity curve, heatmap -/

/-- `computeConsecutive` (lines 1264-1275): longest run, in input order, of
trades whose `(t.r_multiple > 0)` equals `isWin` (an undefined `r_multiple`
compares as not-greater-than-0). -/
def computeConsecutive (l : List Trade) (isWin : Bool) : Nat :=
  (l.foldl
      (fun (mc : Nat × Nat) t =>
        if decide (0 < rMult0 t) = isWin then
          (max mc.1 (mc.2 + 1), mc.2 + 1)
        else (mc.1, 0))
      (0, 0)).1

/-- Win rate of a sub-list, 0 when it is empty (the shape of
`highConfidenceWinRate`, `lowConfidenceWinRate` and `ruleBreakImpact`'s
inner rates, lines 1277-1292). -/
def subsetWinRate (l : List Trade) : ℚ :=
  if l.length = 0 then 0 else (winsCount l : ℚ) / (l.length : ℚ) * 100

/-- `highConfidenceWinRate` (lines 1277-1280). -/
def highConfWinRate (l : List Trade) : ℚ :=
  subsetWinRate (l.filter (fun t => decide (3 < t.confidence.getD 0)))

/-- `lowConfidenceWinRate` (lines 1282-1285). -/
def lowConfWinRate (l : List Trade) : ℚ :=
  subsetWinRate (l.filter (fun t => decide (t.confidence.getD 0 ≤ 3)))

/-- Trades with at least one broken rule (`rule_adherence?.some(ra =>
!ra.followed)`; a missing list is falsy). -/
def brokenTrades (l : List Trade) : List Trade :=
  l.filter (fun t =>
    match t.rule_adherence with
    | some ras => ras.any (fun ra => !ra.followed)
    | none => false)

/-- Trades with every rule followed (`rule_adherence?.every(ra => ra.followed)`;
a missing list is falsy, a present empty list satisfies `every`). -/
def allFollowedTrades (l : List Trade) : List Trade :=
  l.filter (fun t =>
    match t.rule_adherence with
    | some ras => ras.all (fun ra => ra.followed)
    | none => false)

/-- The overconfidence note of line 1234: emitted only when the
high-confidence win rate is strictly below the low-confidence one. -/
def overconfidenceStr (l : List Trade) : String :=
  if highConfWinRate l < lowConfWinRate l then
    "Potential overconfidence: High confidence trades win " ++
      fix1Str (highConfWinRate l) ++ "% vs. low: " ++ fix1Str (lowConfWinRate l) ++ "%"
  else ""

/-- `ruleBreakImpact` (lines 1287-1293): always emitted. -/
def ruleBreakImpactStr (l : List Trade) : String :=
  "Win rate when rules broken: " ++ fix1Str (subsetWinRate (brokenTrades l)) ++
    "% vs. followed: " ++ fix1Str (subsetWinRate (allFollowedTrades l)) ++ "%"

/-- The two behavioral-insight strings (lines 1233-1236). -/
structure Behavioral where
  overconfidence : String
  ruleBreakImpact : String
deriving DecidableEq

/-- Stable ascending insertion by buy timestamp. -/
def insertByBuy (t : Trade) : List Trade → List Trade
  | [] => [t]
  | u :: us =>
      if t.buy_timestamp.epochMin ≤ u.buy_timestamp.epochMin then t :: u :: us
      else u :: insertByBuy t us

/-- `trades.sort((a, b) => new Date(a.buy_timestamp) - new Date(b.buy_timestamp))`:
stable ascending sort by epoch time (the in-place mutation is carried by the
store model below). -/
def sortByBuy : List Trade → List Trade
  | [] => []
  | t :: ts => insertByBuy t (sortByBuy ts)

/-- One equity-curve point: `buy_timestamp.slice(0, 10)` is the calendar day,
`pnl` the running cumulative sum. -/
structure EquityPoint where
  date : Int
  pnl : ℚ
deriving DecidableEq

/-- The map of lines 1298-1301, over an already sorted list. -/
def curveFromSorted (sorted : List Trade) : List EquityPoint :=
  (sorted.foldl
      (fun (acc : List EquityPoint × ℚ) t =>
        (acc.1 ++ [⟨t.buy_timestamp.day, acc.2 + pnl0 t⟩], acc.2 + pnl0 t))
      ([], 0)).1

/-- `computeEquityCurve` (lines 1295-1302). -/
def computeEquityCurve (l : List Trade) : List EquityPoint :=
  curveFromSorted (sortByBuy l)

/-- `computeHeatmapPnL` (lines 1304-1317): 7 rows (weekday) of 24 cells
(hour), each the summed defaulted pnl of the matching trades. -/
def computeHeatmapPnL (l : List Trade) : List (List ℚ) :=
  (List.range 7).map (fun day =>
    (List.range 24).map (fun hour =>
      totalPnlOf (l.filter (fun t =>
        t.buy_timestamp.jsWeekday == (day : Int) && t.buy_timestamp.hour.val == hour))))

/-! ### The assembled result -/

/-- The engine's output bundle (the object literals of lines 1108-1128 and
1241-1261).  `winRate` and `avgR` carry the numeric reading of the `toFixed`
strings. -/
structure AnalyticsResult where
  totalTrades : Nat
  totalPnl : ℚ
  winRate : ℚ
  avgR : ℚ
  longPnl : ℚ
  shortPnl : ℚ
  byStrategy : Groups
  byRule : Groups
  byType : Groups
  byHour : List (String × HourStats)
  byDayOfWeek : List (String × HourStats)
  maxDrawdown : ℚ
  sharpe : ℚ
  avgRiskReward : JsNum
  maxConsecutiveWins : Nat
  maxConsecutiveLosses : Nat
  behavioral : Behavioral
  equityCurve : List EquityPoint
  heatmapPnL : List (List ℚ)
deriving DecidableEq

/-- The zero result of the empty-input branch (lines 1107-1129).  Note
`heatmapPnL` is the empty array `[]` there, not a 7 by 24 zero matrix. -/
def emptyResult : AnalyticsResult :=
  { totalTrades := 0, totalPnl := 0, winRate := 0, avgR := 0, longPnl := 0,
    shortPnl := 0, byStrategy := [], byRule := [], byType := [], byHour := [],
    byDayOfWeek := [], maxDrawdown := 0, sharpe := 0, avgRiskReward := .num 0,
    maxConsecutiveWins := 0, maxConsecutiveLosses := 0,
    behavioral := ⟨"", ""⟩, equityCurve := [], heatmapPnL := [] }

/-- `Math.sqrt` on the trade count, as the `sharpe` line divides by it.  The
integer square root is exact on perfect squares; every execution that reaches
the sharpe expression has `totalTrades = 1` (a larger count already threw in
the maxDrawdown spread, line 1224, which runs first). -/
def sqrtQ (n : Nat) : ℚ := (Nat.sqrt n : ℚ)

/-- The result object of lines 1241-1261, for a nonempty filtered list `l`
with maxDrawdown value `md`; `heatSrc` is the array contents
`computeHeatmapPnL` reads (after `computeEquityCurve` sorted it in place).
`sharpe = totalPnl / Math.sqrt(totalTrades) || 0` with the `|| 0` the
identity on a rational. -/
def buildResultH (strategies : List Strategy) (l : List Trade) (md : ℚ)
    (heatSrc : List Trade) : AnalyticsResult :=
  { totalTrades := l.length
    totalPnl := totalPnlOf l
    winRate := winRateOf l
    avgR := avgROf l
    longPnl := longPnlOf l
    shortPnl := shortPnlOf l
    byStrategy := byStrategyOf strategies l
    byRule := byRuleOf l
    byType := byTypeOf l
    byHour := byHourOf l
    byDayOfWeek := byDayOfWeekOf l
    maxDrawdown := md
    sharpe := totalPnlOf l / sqrtQ l.length
    avgRiskReward := avgRiskRewardOf l
    maxConsecutiveWins := computeConsecutive l true
    maxConsecutiveLosses := computeConsecutive l false
    behavioral := ⟨overconfidenceStr l, ruleBreakImpactStr l⟩
    equityCurve := computeEquityCurve l
    heatmapPnL := computeHeatmapPnL heatSrc }

/-- `computeAnalytics` (lines 1106-1262) as a fallible computation: the
empty-input branch returns the zero bundle; otherwise the maxDrawdown
expression runs over the ascending-sorted pnl array and, for two or more
trades, raises, aborting the call before anything is returned. -/
def computeAnalyticsE (strategies : List Strategy) (l : List Trade) :
    Except JsError AnalyticsResult :=
  if l.length = 0 then .ok emptyResult
  else
    match maxDrawdownE (sortAsc (l.map pnl0)) with
    | .error e => .error e
    | .ok md => .ok (buildResultH strategies l md (sortByBuy l))

/-! ### Store model: array identities and in-place mutation

`applyFilters` returns a fresh array (`Array.prototype.filter` allocates), and
`computeEquityCurve` sorts its argument array in place.  To settle the
no-mutation claim those identities are made explicit: a `Store` maps array
references (indices) to contents, `trades.filter` appends a new array, and
the in-place sort writes back through the filtered array's reference. -/

abbrev Store := List (List Trade)

/-- `computeAnalytics(filteredTrades)` where `r` is the reference of the
filtered array inside `st`: on the path that reaches `computeEquityCurve`
the in-place sort writes the sorted array back to `r`, and
`computeHeatmapPnL` then reads the mutated contents. -/
def computeAnalyticsSt (strategies : List Strategy) (st : Store) (r : Nat) :
    Store × Except JsError AnalyticsResult :=
  let l := st.getD r []
  if l.length = 0 then (st, .ok emptyResult)
  else
    match maxDrawdownE (sortAsc (l.map pnl0)) with
    | .error e => (st, .error e)
    | .ok md =>
        let st2 := st.set r (sortByBuy l)
        (st2, .ok (buildResultH strategies l md (st2.getD r [])))

/-- The analytics effect of FailDashboard.jsx lines 1323-1326: read the trade
array at reference `r`, filter it into a freshly allocated array, and
aggregate. -/
def runEngine (f : FilterSpec) (strategies : List Strategy) (st : Store)
    (r : Nat) : Store × Except JsError AnalyticsResult :=
  let st1 := st ++ [applyFilters f (st.getD r [])]
  computeAnalyticsSt strategies st1 st.length

/-! ### Spec-side comparison definitions and small helpers -/

/-- The spec's adherence fraction: the fraction of `rule_adherence` entries
with `followed = true`, a trade with no entries counting as 100% followed. -/
def fracFollowedSpec (t : Trade) : ℚ :=
  match t.rule_adherence with
  | none => 1
  | some ras =>
      if ras.length = 0 then 1
      else ((ras.filter (fun r => r.followed)).length : ℚ) / (ras.length : ℚ)

/-- Total of the per-group trade counts of a grouping. -/
def sumTradesG (g : Groups) : Nat :=
  (g.map (fun kv => kv.2.trades)).sum

/-! ### Concrete inputs used by the claim theorems -/

/-- First trade of the spec's Scenario A (2024-01-01 is day 19723 since the
epoch, a Monday). -/
def scenarioTrade1 : Trade :=
  { id := 1, buy_timestamp := ⟨19723, 9, 0⟩, direction := some "Long",
    confidence := some 5, pnl := some 100, r_multiple := some 1 }

/-- Second trade of the spec's Scenario A (2024-01-02, day 19724). -/
def scenarioTrade2 : Trade :=
  { id := 2, buy_timestamp := ⟨19724, 10, 0⟩, direction := some "Short",
    confidence := some 2, pnl := some (-50), r_multiple := some (-(1/2)) }

/-- The Scenario A trade list. -/
def scenarioA : List Trade := [scenarioTrade1, scenarioTrade2]

/-- Two plain trades with pnl 100 and -50: the smallest input on which the
maxDrawdown spread throws. -/
def drawdownDemo : List Trade :=
  [{ buy_timestamp := ⟨19723, 9, 0⟩, pnl := some 100 },
   { buy_timestamp := ⟨19724, 10, 0⟩, pnl := some (-50) }]

/-- A trade with exactly 80% of its rules followed (4 of 5). -/
def tBoundary80 : Trade :=
  { buy_timestamp := ⟨19723, 9, 0⟩,
    rule_adherence := some [⟨1, true⟩, ⟨2, true⟩, ⟨3, true⟩, ⟨4, true⟩, ⟨5, false⟩] }

/-- A trade with 50% of its rules followed (Scenario C). -/
def tFifty : Trade :=
  { buy_timestamp := ⟨19723, 9, 0⟩, rule_adherence := some [⟨1, true⟩, ⟨2, false⟩] }

/-- A trade bought at 10:00 on day 19724. -/
def tEndDay : Trade := { buy_timestamp := ⟨19724, 10, 0⟩ }

/-- A trade with a missing `target` (buy 10, stop 5). -/
def tMissTarget : Trade :=
  { buy_timestamp := ⟨19723, 9, 0⟩, buy_price := some 10, stop := some 5 }

/-- A trade with all risk fields present (buy 10, stop 5, target 20). -/
def tFullRR : Trade :=
  { buy_timestamp := ⟨19723, 9, 0⟩, buy_price := some 10, stop := some 5,
    target := some 20 }

/-- A trade with no strategy assigned. -/
def tNoStrat : Trade :=
  { buy_timestamp := ⟨19723, 9, 0⟩, pnl := some 7, strategy_id := none }

/-- A one-strategy list whose id matches nothing in the demos. -/
def demoStrategies : List Strategy := [⟨3, "Alpha", ""⟩]

/-- A store holding the Scenario A array at reference 0. -/
def demoStore : Store := [scenarioA]

end TaoJournal

deriving instance DecidableEq for Except

namespace TaoJournal

/-! ## Helper lemmas -/

theorem insertAsc_length (x : ℚ) (l : List ℚ) :
    (insertAsc x l).length = l.length + 1 := by
  induction l with
  | nil => rfl
  | cons y ys ih =>
      unfold insertAsc
      by_cases h : x ≤ y <;> simp [h, ih]

theorem sortAsc_length (l : List ℚ) : (sortAsc l).length = l.length := by
  induction l with
  | nil => rfl
  | cons x xs ih => simp [sortAsc, insertAsc_length, ih]

theorem maxDrawdownE_throws (l : List ℚ) (h : 1 < l.length) :
    maxDrawdownE l = .error .typeError := by
  unfold maxDrawdownE
  rw [if_pos h]
  rfl

theorem jsOr0_num (q : ℚ) : jsOr0 (.num q) = .num q := by
  by_cases h : q = 0 <;> simp [jsOr0, h]

theorem JsNum.add_num (a b : ℚ) : JsNum.add (.num a) (.num b) = .num (a + b) := rfl

theorem divNat_num_succ (a : ℚ) (m : ℕ) :
    JsNum.divNat (.num a) (m + 1) = .num (a / ((m + 1 : ℕ) : ℚ)) := rfl

theorem rr_fold (l : List Trade)
    (h : ∀ t ∈ l, t.buy_price.getD 0 - t.stop.getD 0 ≠ 0) (q : ℚ) :
    l.foldl (fun s t => jsOr0 (JsNum.add s (rrStep t))) (.num q) =
      .num (q + (l.map ratioD).sum) := by
  induction l generalizing q with
  | nil => simp
  | cons t ts ih =>
      have ht := h t (List.mem_cons_self t ts)
      have hts : ∀ u ∈ ts, u.buy_price.getD 0 - u.stop.getD 0 ≠ 0 :=
        fun u hu => h u (List.mem_cons_of_mem t hu)
      have hstep : rrStep t = .num (ratioD t) := by
        simp [rrStep, jsDiv, ht, ratioD]
      simp only [List.foldl_cons, hstep, JsNum.add_num, jsOr0_num]
      rw [ih hts]
      simp [add_assoc]

theorem totalPnlOf_eq_sum (l : List Trade) : totalPnlOf l = (l.map pnl0).sum := by
  have key : ∀ (m : List Trade) (a : ℚ),
      m.foldl (fun s t => s + pnl0 t) a = a + (m.map pnl0).sum := by
    intro m
    induction m with
    | nil => simp
    | cons t ts ih => intro a; simp [ih, add_assoc]
  simpa [totalPnlOf] using key l 0

/-! ## Claims -/

/-- C2: for the two-trade Scenario A input under the all-unrestricted filter
spec, the filter keeps both trades and the scalar metrics the code computes
are totalTrades 2, totalPnl 50, winRate 50.0, avgR 0.25, longPnl 100,
shortPnl -50 — but `computeAnalytics` then raises a TypeError in the
maxDrawdown spread and never returns them, so the engine does not return
this (or any) result. -/
theorem C2_scenarioA_eval :
    applyFilters defaultFilters scenarioA = scenarioA ∧
    scenarioA.length = 2 ∧
    totalPnlOf scenarioA = 50 ∧
    winRateOf scenarioA = 50 ∧
    avgROf scenarioA = 1/4 ∧
    longPnlOf scenarioA = 100 ∧
    shortPnlOf scenarioA = -50 ∧
    computeAnalyticsE [] scenarioA = .error .typeError := by
  refine ⟨?_, by decide, ?_, ?_, ?_, ?_, ?_, ?_⟩
  · simp +decide [applyFilters, scenarioA, scenarioTrade1, scenarioTrade2, passesFilters,
      datePass, timePass, strategyPass, typePass, directionPass, confidencePass,
      followedPass, defaultFilters, Timestamp.minuteOfDay]
  · norm_num [totalPnlOf, scenarioA, scenarioTrade1, scenarioTrade2, pnl0]
  · norm_num [winRateOf, winsCount, scenarioA, scenarioTrade1, scenarioTrade2, rMult0, toFixed]
  · norm_num [avgROf, scenarioA, scenarioTrade1, scenarioTrade2, rMult0, toFixed]
  · norm_num +decide [longPnlOf, longTrades, totalPnlOf, scenarioA, scenarioTrade1,
      scenarioTrade2, pnl0]
  · norm_num +decide [shortPnlOf, shortTrades, totalPnlOf, scenarioA, scenarioTrade1,
      scenarioTrade2, pnl0]
  · unfold computeAnalyticsE
    rw [if_neg (by decide), maxDrawdownE_throws]
    rw [sortAsc_length, List.length_map]
    decide

/-- C3, counterexample: on the empty trade list the engine's `heatmapPnL` is
the empty array, not a 7 by 24 matrix of zeros as the claim states. -/
theorem C3_heatmap_counterexample :
    (computeAnalyticsE [] []).toOption.map (fun r => r.heatmapPnL) = some [] ∧
    some ([] : List (List ℚ)) ≠ some (List.replicate 7 (List.replicate 24 (0 : ℚ))) := by
  decide

/-- C3, amended: for the empty trade list `aggregate` returns every scalar
zero, every grouping empty, an empty equity curve, empty behavioral-insight
strings, and an empty (rather than 7 by 24 all-zero) heatmap. -/
theorem C3_empty_aggregate (strategies : List Strategy) :
    computeAnalyticsE strategies [] = .ok
      { totalTrades := 0, totalPnl := 0, winRate := 0, avgR := 0, longPnl := 0,
        shortPnl := 0, byStrategy := [], byRule := [], byType := [],
        byHour := [], byDayOfWeek := [], maxDrawdown := 0, sharpe := 0,
        avgRiskReward := .num 0, maxConsecutiveWins := 0,
        maxConsecutiveLosses := 0,
        behavioral := { overconfidence := "", ruleBreakImpact := "" },
        equityCurve := [], heatmapPnL := [] } := by
  rfl

/-- C5, counterexample: with `endDate` set to day 19724 a trade bought at
10:00 on that very day is rejected by the date-range filter, though the claim
says any time of day on `endDate` is kept. -/
theorem C5_endDate_counterexample :
    tEndDay.buy_timestamp.day = 19724 ∧
    datePass none (some 19724) tEndDay = false := by
  decide

/-- C5, amended: the date-range filter keeps a trade exactly when its full
buy timestamp lies in the interval from midnight of `startDate` to midnight
of `endDate` — so a trade on `endDate` is kept only at exactly 00:00, later
times of that day being excluded — and an unset bound imposes no
restriction. -/
theorem C5_dateRange_amended (sd ed : Option Int) (t : Trade) :
    datePass sd ed t = true ↔
      ((match sd with
        | some d => d * 1440 ≤ t.buy_timestamp.epochMin
        | none => True) ∧
       (match ed with
        | some d => t.buy_timestamp.epochMin ≤ d * 1440
        | none => True)) := by
  cases sd <;> cases ed <;> simp [datePass]

/-- C4, counterexample: a trade with exactly 80% of its adherence entries
followed (fraction 4/5, not less than 0.8) is kept by the "Broken" filter,
though the claim says "Broken" keeps a trade exactly when the fraction is
strictly below 0.8. -/
theorem C4_broken_boundary_counterexample :
    avgFollowed tBoundary80 = some (4/5) ∧
    ¬((4 : ℚ)/5 < 4/5) ∧
    followedPass "Broken" tBoundary80 = true := by
  refine ⟨?_, by norm_num, ?_⟩
  · norm_num [avgFollowed, tBoundary80]
  · simp [followedPass, avgFollowed, tBoundary80, optGt, optLt]

/-- C4, amended: for a trade whose `rule_adherence` is not a present-but-empty
list, "Followed" keeps it exactly when the followed fraction (1 for a missing
list) is at least 0.8, and "Broken" keeps it exactly when that fraction is at
most 0.8 — so the boundary fraction 0.8 passes both, a trade with no
adherence list passes "Followed" and fails "Broken", and a 50%-followed trade
fails "Followed" and passes "Broken".  (A present-but-empty list, excluded
here, makes `avgFollowed` NaN and passes both filters.) -/
theorem C4_adherence_amended (t : Trade) (h : t.rule_adherence ≠ some []) :
    (followedPass "Followed" t = true ↔ 4/5 ≤ fracFollowedSpec t) ∧
    (followedPass "Broken" t = true ↔ fracFollowedSpec t ≤ 4/5) := by
  cases hra : t.rule_adherence with
  | none =>
      simp +decide [followedPass, avgFollowed, fracFollowedSpec, hra, optLt, optGt]
  | some ras =>
      have hne : ras.length ≠ 0 := by
        intro h0
        exact h (by rw [hra, List.length_eq_zero.mp h0])
      simp +decide [followedPass, avgFollowed, fracFollowedSpec, hra, hne, optLt, optGt,
        not_lt]

/-- C4, witness: the amended equivalences at the 50%-followed trade of
Scenario C, whose adherence list is nonempty. -/
theorem C4_adherence_amended_witness :
    (followedPass "Followed" tFifty = true ↔ 4/5 ≤ fracFollowedSpec tFifty) ∧
    (followedPass "Broken" tFifty = true ↔ fracFollowedSpec tFifty ≤ 4/5) :=
  C4_adherence_amended tFifty (by decide)

/-- C1: the aggregation stage is not total — for every strategy list and every
trade list with at least two trades, `computeAnalytics` raises a TypeError
(the maxDrawdown expression spreads the non-iterable number the inner reduce
returned into `Math.min`), so no `AnalyticsResult` is returned. -/
theorem C1_computeAnalytics_throws (strategies : List Strategy) (l : List Trade)
    (h : 1 < l.length) :
    computeAnalyticsE strategies l = .error .typeError := by
  have hlen : 1 < (sortAsc (l.map pnl0)).length := by
    rw [sortAsc_length, List.length_map]
    omega
  unfold computeAnalyticsE
  rw [if_neg (by omega), maxDrawdownE_throws _ hlen]

/-- C1, witness: the throw at the concrete two-trade list with pnl 100
and -50. -/
theorem C1_computeAnalytics_throws_witness :
    computeAnalyticsE [] drawdownDemo = .error .typeError :=
  C1_computeAnalytics_throws [] drawdownDemo (by decide)

/-- C7, counterexample: a single trade with `target` missing, buy price 10
and stop 5 should contribute 0 by the claim (so the mean would be 0), but the
code defaults the missing target to 0 and computes (0 - 10) / (10 - 5) = -2,
so `avgRiskReward` is -2, not 0. -/
theorem C7_missing_target_counterexample :
    tMissTarget.target = none ∧
    avgRiskRewardSpec [tMissTarget] = 0 ∧
    avgRiskRewardOf [tMissTarget] = .num (-2) := by
  refine ⟨rfl, ?_, ?_⟩
  · norm_num [avgRiskRewardSpec, tMissTarget]
  · have hr : ratioD tMissTarget = -2 := by norm_num [ratioD, tMissTarget]
    unfold avgRiskRewardOf
    rw [rr_fold [tMissTarget] (by norm_num [tMissTarget]) 0]
    simp only [List.map_cons, List.map_nil, List.sum_cons, List.sum_nil, hr,
      List.length_singleton]
    rw [show (1 : ℕ) = 0 + 1 from rfl, divNat_num_succ, jsOr0_num]
    norm_num

/-- C7, amended: `avgRiskReward` equals the mean over the filtered trades of
(target - buy_price) / (buy_price - stop) with missing fields defaulted to 0,
provided every trade's defaulted denominator buy_price - stop is nonzero.  A
trade with a missing target or stop contributes its 0-defaulted ratio rather
than 0; a zero denominator with nonzero numerator makes the running sum
infinite, and with zero numerator (NaN) resets the running sum to 0. -/
theorem C7_avgRiskReward_amended (l : List Trade)
    (h : ∀ t ∈ l, t.buy_price.getD 0 - t.stop.getD 0 ≠ 0) :
    avgRiskRewardOf l = .num ((l.map ratioD).sum / (l.length : ℚ)) := by
  unfold avgRiskRewardOf
  rw [rr_fold l h 0]
  cases l with
  | nil => simp [JsNum.divNat, jsOr0]
  | cons t ts =>
      simp only [zero_add, List.length_cons, divNat_num_succ, jsOr0_num]

/-- C7, witness: the amended mean at a one-trade list with buy 10, stop 5,
target 20 (denominator 5). -/
theorem C7_avgRiskReward_amended_witness :
    avgRiskRewardOf [tFullRR] =
      .num ((([tFullRR] : List Trade).map ratioD).sum /
        (([tFullRR] : List Trade).length : ℚ)) :=
  C7_avgRiskReward_amended [tFullRR] (by norm_num [tFullRR])

/-- C8: for every trade list and every filter spec the filtered list is,
unconditionally, a subsequence of the input (element identity and order
preserved); and the least restrictive spec — unset date bounds, time
00:00-23:59, no strategy, type/direction/adherence "All", confidence 1-5 —
returns the input unchanged whenever every trade's confidence is present and
within 1..5 (the claim's "confidences in range" proviso, which scopes over
this identity half only). -/
theorem C8_filter_sublist_and_identity (f : FilterSpec) (trades : List Trade) :
    (applyFilters f trades).Sublist trades ∧
    ((∀ t ∈ trades, 1 ≤ t.confidence.getD 0 ∧ t.confidence.getD 0 ≤ 5) →
      applyFilters defaultFilters trades = trades) := by
  constructor
  · exact List.filter_sublist trades
  · intro h
    rw [applyFilters, List.filter_eq_self]
    intro t ht
    obtain ⟨h1, h5⟩ := h t ht
    have hhour := t.buy_timestamp.hour.isLt
    have hmin := t.buy_timestamp.minute.isLt
    simp +decide [passesFilters, datePass, timePass, strategyPass, typePass,
      directionPass, confidencePass, followedPass, defaultFilters,
      Timestamp.minuteOfDay]
    omega

/-- C8, witness: the subsequence part and the discharged identity part at the
Scenario A list, whose confidences 5 and 2 are in range. -/
theorem C8_filter_sublist_and_identity_witness :
    (applyFilters defaultFilters scenarioA).Sublist scenarioA ∧
    applyFilters defaultFilters scenarioA = scenarioA :=
  ⟨(C8_filter_sublist_and_identity defaultFilters scenarioA).1,
   (C8_filter_sublist_and_identity defaultFilters scenarioA).2 (by decide)⟩

/-- C9: whenever every filtered trade's direction is Long or Short, totalPnl
is conserved across the Long/Short split: it equals longPnl + shortPnl. -/
theorem C9_pnl_conservation (l : List Trade)
    (h : ∀ t ∈ l, t.direction = some "Long" ∨ t.direction = some "Short") :
    totalPnlOf l = longPnlOf l + shortPnlOf l := by
  unfold longPnlOf shortPnlOf longTrades shortTrades
  rw [totalPnlOf_eq_sum, totalPnlOf_eq_sum, totalPnlOf_eq_sum]
  induction l with
  | nil => simp
  | cons t ts ih =>
      have hts : ∀ u ∈ ts, u.direction = some "Long" ∨ u.direction = some "Short" :=
        fun u hu => h u (List.mem_cons_of_mem t hu)
      rcases h t (List.mem_cons_self t ts) with ht | ht
      · rw [List.filter_cons_of_pos (by simp +decide [ht]),
          List.filter_cons_of_neg (by simp +decide [ht])]
        simp only [List.map_cons, List.sum_cons, ih hts]
        ring
      · rw [List.filter_cons_of_neg (by simp +decide [ht]),
          List.filter_cons_of_pos (by simp +decide [ht])]
        simp only [List.map_cons, List.sum_cons, ih hts]
        ring

/-- C9, witness: conservation at the Scenario A list (one Long, one Short). -/
theorem C9_pnl_conservation_witness :
    totalPnlOf scenarioA = longPnlOf scenarioA + shortPnlOf scenarioA :=
  C9_pnl_conservation scenarioA (by decide)

theorem listGetD_set_self {α : Type} (l : List α) (r : Nat) (v d : α)
    (h : r < l.length) : (l.set r v).getD r d = v := by
  induction l generalizing r with
  | nil => simp at h
  | cons x xs ih =>
      cases r with
      | zero => rfl
      | succ n =>
          simp only [List.set, List.getD, List.getElem?_cons_succ]
          exact ih n (by simpa using h)

theorem listGetD_set_ne {α : Type} (l : List α) (r i : Nat) (v d : α)
    (hne : i ≠ r) : (l.set r v).getD i d = l.getD i d := by
  induction l generalizing r i with
  | nil => simp [List.set]
  | cons x xs ih =>
      cases r with
      | zero =>
          cases i with
          | zero => exact absurd rfl hne
          | succ j => rfl
      | succ n =>
          cases i with
          | zero => rfl
          | succ j =>
              simp only [List.set, List.getD, List.getElem?_cons_succ]
              exact ih n j (fun hc => hne (by rw [hc]))

theorem listGetD_append_lt {α : Type} (l m : List α) (i : Nat) (d : α)
    (h : i < l.length) : (l ++ m).getD i d = l.getD i d := by
  induction l generalizing i with
  | nil => simp at h
  | cons x xs ih =>
      cases i with
      | zero => rfl
      | succ n =>
          simp only [List.cons_append, List.getD, List.getElem?_cons_succ]
          exact ih n (by simpa using h)

theorem listGetD_append_len {α : Type} (l : List α) (x d : α) :
    (l ++ [x]).getD l.length d = x := by
  induction l with
  | nil => rfl
  | cons y ys ih =>
      simp only [List.cons_append, List.length_cons, List.getD,
        List.getElem?_cons_succ]
      exact ih

theorem computeAnalyticsSt_snd (strategies : List Strategy) (st : Store) (r : Nat)
    (h : r < st.length) :
    (computeAnalyticsSt strategies st r).2 =
      computeAnalyticsE strategies (st.getD r []) := by
  unfold computeAnalyticsSt computeAnalyticsE
  by_cases h0 : (st.getD r []).length = 0
  · rw [if_pos h0, if_pos h0]
  · rw [if_neg h0, if_neg h0]
    cases hmd : maxDrawdownE (sortAsc ((st.getD r []).map pnl0)) with
    | error e => rfl
    | ok md =>
        simp only []
        rw [listGetD_set_self st r _ [] h]

theorem computeAnalyticsSt_fst_ne (strategies : List Strategy) (st : Store)
    (r i : Nat) (hne : i ≠ r) :
    (computeAnalyticsSt strategies st r).1.getD i [] = st.getD i [] := by
  unfold computeAnalyticsSt
  by_cases h0 : (st.getD r []).length = 0
  · rw [if_pos h0]
  · rw [if_neg h0]
    cases hmd : maxDrawdownE (sortAsc ((st.getD r []).map pnl0)) with
    | error e => rfl
    | ok md =>
        simp only []
        exact listGetD_set_ne st r i _ [] hne

/-- C6: the engine never mutates its input trade list — after filtering (which
allocates a fresh array) and aggregating (including the in-place sort the
equity-curve computation performs on the filtered array), the array at the
input reference is unchanged, and the outcome equals the pure function
`computeAnalyticsE` of (trades, strategies, filterSpec). -/
theorem C6_no_mutation_pure (f : FilterSpec) (strategies : List Strategy)
    (st : Store) (r : Nat) (h : r < st.length) :
    ((runEngine f strategies st r).1.getD r [] = st.getD r []) ∧
    ((runEngine f strategies st r).2 =
      computeAnalyticsE strategies (applyFilters f (st.getD r []))) := by
  unfold runEngine
  constructor
  · rw [computeAnalyticsSt_fst_ne strategies _ st.length r (by omega)]
    exact listGetD_append_lt st _ r [] h
  · rw [computeAnalyticsSt_snd strategies _ st.length (by simp)]
    rw [listGetD_append_len st _ []]

/-- C6, witness: the unchanged input array and the pure outcome at a store
holding the Scenario A array at reference 0. -/
theorem C6_no_mutation_pure_witness :
    ((runEngine defaultFilters [] demoStore 0).1.getD 0 [] = demoStore.getD 0 []) ∧
    ((runEngine defaultFilters [] demoStore 0).2 =
      computeAnalyticsE [] (applyFilters defaultFilters (demoStore.getD 0 []))) :=
  C6_no_mutation_pure defaultFilters [] demoStore 0 (by decide)

theorem sumTradesG_upd (k : String) (t : Trade) (g : Groups) :
    sumTradesG (updAssoc k (addTradeStats t) {} g) = sumTradesG g + 1 := by
  induction g with
  | nil => rfl
  | cons kv rest ih =>
      obtain ⟨k', v⟩ := kv
      unfold updAssoc
      by_cases hk : k' = k
      · rw [if_pos hk]
        simp [sumTradesG, addTradeStats]
        omega
      · rw [if_neg hk]
        simp [sumTradesG] at ih ⊢
        omega

theorem sumTradesG_fold (strategies : List Strategy) (l : List Trade) :
    ∀ g : Groups,
      sumTradesG (l.foldl
        (fun g t => updAssoc (stratName strategies t) (addTradeStats t) {} g) g) =
      sumTradesG g + l.length := by
  induction l with
  | nil => intro g; simp
  | cons t ts ih =>
      intro g
      simp only [List.foldl_cons]
      rw [ih, sumTradesG_upd]
      simp only [List.length_cons]
      omega

theorem sumTradesG_map_finalize (g : Groups) :
    sumTradesG (g.map (fun kv => (kv.1, finalizeStats kv.2))) = sumTradesG g := by
  induction g with
  | nil => rfl
  | cons kv rest ih =>
      simp only [List.map_cons, sumTradesG, List.sum_cons] at ih ⊢
      rw [show (finalizeStats kv.2).trades = kv.2.trades from rfl]
      omega

/-- C10: in the byStrategy grouping every filtered trade whose strategy_id is
null or matches no supplied strategy's id falls under the key "No Strategy",
and each trade is counted in exactly one group, so the group trade counts sum
to the number of filtered trades (totalTrades). -/
theorem C10_byStrategy_partition (strategies : List Strategy) (l : List Trade) :
    (∀ t ∈ l, (t.strategy_id = none ∨
        strategies.find? (fun s => some s.id == t.strategy_id) = none) →
      stratName strategies t = "No Strategy") ∧
    sumTradesG (byStrategyOf strategies l) = l.length := by
  constructor
  · intro t ht hc
    have hn : strategies.find? (fun s => some s.id == t.strategy_id) = none := by
      rcases hc with h0 | hn
      · apply List.find?_eq_none.mpr
        intro s hs
        rw [h0]
        simp
      · exact hn
    unfold stratName
    rw [hn]
  · rw [byStrategyOf, sumTradesG_map_finalize, byStrategyRaw, sumTradesG_fold]
    simp [sumTradesG]

end TaoJournal
